import Mathlib

/-!
Verification of the speedwatch measurement-and-publish pipeline
(src/main.rs) via a shallow embedding.

The pipeline measures download bandwidth and latency, assembles a
Prometheus remote-write request with two time series, attaches a Basic
authentication header, delivers it over HTTP, and repeats at a fixed
interval.  External collaborators (hostname lookup, the speed test, the
system clock, URL parsing, the wire encoder, the HTTP client) are
modelled as oracle fields of a `World`; the embedded cycle records the
order of its externally visible steps in an event trace.
-/

namespace Speedwatch

/-! ## Remote-write data model (prometheus_remote_write crate types) -/

/-- A label: key/value pair attached to a time series. -/
structure Label where
  name : String
  value : String
deriving DecidableEq, Repr

/-- One sample: a float value with a millisecond timestamp. -/
structure Sample where
  value : Float
  timestamp : Int
deriving Repr, Inhabited

/-- A time series: labels plus samples. -/
structure TimeSeries where
  labels : List Label
  samples : List Sample
deriving Repr, Inhabited

/-- A remote-write request: a sequence of time series. -/
structure WriteRequest where
  timeseries : List TimeSeries
deriving Repr

/-- The protocol-required metric-name label key, the constant
`LABEL_NAME` of the prometheus_remote_write crate. -/
def LABEL_NAME : String := "__name__"

/-- The assembly step of `collect_and_push` (src/main.rs lines 68-104):
from the resolved hostname, the two measurements and the cycle
timestamp, build the write request with the bandwidth series followed
by the latency series. -/
def buildWriteRequest (hostname : String) (download_speed avg_latency : Float)
    (time : Int) : WriteRequest :=
  let bw_labels : List Label :=
    [{ name := "hostname", value := hostname },
     { name := LABEL_NAME, value := "sw_internet_bandwidth_mbit" }]
  let bw_timeseries : TimeSeries :=
    { labels := bw_labels,
      samples := [{ value := download_speed, timestamp := time }] }
  let latency_labels : List Label :=
    [{ name := "hostname", value := hostname },
     { name := LABEL_NAME, value := "sw_internet_latency_ms" }]
  let latency_timeseries : TimeSeries :=
    { labels := latency_labels,
      samples := [{ value := avg_latency, timestamp := time }] }
  { timeseries := [bw_timeseries, latency_timeseries] }

/-! ## Base64 (the STANDARD engine of the base64 crate) -/

/-- The standard base64 alphabet, as a list of 64 characters. -/
def b64Table : List Char :=
  "ABCDEFGHIJKLMNOPQRSTUVWXYZabcdefghijklmnopqrstuvwxyz0123456789+/".toList

/-- The alphabet character for a 6-bit group. -/
def b64Char (n : Nat) : Char := b64Table.getD (n % 64) 'A'

/-- Standard base64 with padding, on a list of bytes (each < 256):
3 input bytes become 4 alphabet characters, a trailing group of 1 or 2
bytes is padded with `=`. -/
def b64Chars : List Nat → List Char
  | [] => []
  | [a] => [b64Char (a / 4), b64Char (a % 4 * 16), '=', '=']
  | [a, b] => [b64Char (a / 4), b64Char (a % 4 * 16 + b / 16),
               b64Char (b % 16 * 4), '=']
  | a :: b :: c :: rest =>
      b64Char (a / 4) :: b64Char (a % 4 * 16 + b / 16) ::
      b64Char (b % 16 * 4 + c / 64) :: b64Char (c % 64) :: b64Chars rest

/-- Standard base64 encoding of a byte list, as a string. -/
def base64Encode (bytes : List Nat) : String := String.mk (b64Chars bytes)

/-- The UTF-8 bytes of a string, as natural numbers. -/
def utf8Bytes (s : String) : List Nat := s.toUTF8.toList.map UInt8.toNat

/-! ## HTTP request model and the Authorization header -/

/-- An HTTP request as handed from the wire encoder to the delivery
step: method, target URL, header list, body bytes. -/
structure HttpRequest where
  method : String
  url : String
  headers : List (String × String)
  body : List Nat
deriving DecidableEq, Repr

/-- `HeaderMap.insert` of the http crate: associates the value with the
name, replacing any values previously associated with it.  (Header-name
case-insensitivity is not modelled; every name in this program is used
with a single spelling.) -/
def insertHeader (headers : List (String × String)) (name value : String) :
    List (String × String) :=
  headers.filter (fun p => p.1 ≠ name) ++ [(name, value)]

/-- The Basic credential string of `collect_and_push`
(src/main.rs lines 116-119): standard base64 of the UTF-8 bytes of
`username:password`. -/
def basicCredentials (username password : String) : String :=
  base64Encode (utf8Bytes (username ++ ":" ++ password))

/-- The Authorization header value of `collect_and_push`
(src/main.rs line 122). -/
def authHeaderValue (username password : String) : String :=
  "Basic " ++ basicCredentials username password

/-- Lines 116-123 of src/main.rs: compute the Basic credentials and
insert the Authorization header into the request produced by the wire
encoder. -/
def addAuthHeader (req : HttpRequest) (username password : String) :
    HttpRequest :=
  { req with
    headers := insertHeader req.headers "Authorization"
        (authHeaderValue username password) }

/-- Validity of one byte of an http-crate `HeaderValue`
(`HeaderValue::from_str` accepts a string iff every byte b satisfies
b >= 32 and b <> 127, or b = 9).  Applied below to characters of
ASCII-only strings, whose UTF-8 bytes coincide with their code points. -/
def isValidHeaderByte (b : Nat) : Bool := (32 ≤ b && b ≠ 127) || b == 9

/-- Validity of an ASCII character inside a `HeaderValue`. -/
def isValidHeaderChar (c : Char) : Bool := isValidHeaderByte c.toNat

/-! ## The measurement cycle `collect_and_push` -/

/-- Diagnostic error type: every fallible step of the cycle surfaces a
`miette` diagnostic, modelled as a string. -/
abbrev Err := String

/-- An HTTP response, of which the cycle observes only the status. -/
structure Response where
  status : Nat
deriving DecidableEq, Repr

/-- The configuration object parsed at start-up (struct `Args`). -/
structure Args where
  interval : Nat
  remote_write_url : String
  username_remote_write : String
  password_remote_write : String

/-- The User-Agent string: package name and version from build
metadata.  Its exact value never matters below; it is only passed to
the wire-encoder oracle. -/
def USER_AGENT : String := "speedwatch-rs/0"

/-- The request timeout the delivery client is built with
(src/main.rs line 127, `Duration::from_secs(30)`), in seconds. -/
def requestTimeoutSecs : Nat := 30

/-- Oracles for the external collaborators of one cycle, in the order
`collect_and_push` consults them. -/
structure World where
  /-- `hostname::get` followed by the lossy string conversion. -/
  hostnameRes : Except Err String
  /-- Download throughput returned by `test_download` (mbit). -/
  downloadSpeed : Float
  /-- Average latency returned by `run_latency_test` (ms). -/
  avgLatency : Float
  /-- `SystemTime::now` since the epoch in milliseconds, including the
  conversion to i64 (either step may fail). -/
  nowRes : Except Err Int
  /-- `str::parse::<url::Url>` on the configured URL. -/
  parseUrl : String → Except Err String
  /-- `WriteRequest::build_http_request` of the wire-encoder crate:
  URL, user agent and write request to a base HTTP request. -/
  encode : String → String → WriteRequest → Except Err HttpRequest
  /-- `Client::builder().timeout(..).build()`. -/
  clientBuild : Except Err Unit
  /-- `reqwest::Method::from_str` on the method of the built request. -/
  parseMethod : String → Except Err Unit
  /-- `send` on the rebuilt request: a response, or a transport error
  (connection, timeout, TLS/DNS failure). -/
  send : HttpRequest → Except Err Response

/-- Externally visible steps of one cycle, in execution order. -/
inductive CycleEvent where
  | getHostname
  | measureDownload
  | measureLatency
  | readClock
  | parseUrlStep
  | encodeRequest
  | buildClient (timeoutSecs : Nat)
  | send (req : HttpRequest)
  | logStatus (status : Nat)
deriving DecidableEq, Repr

/-- Shallow embedding of `collect_and_push` (src/main.rs lines 45-145):
runs one cycle against the world oracles, returning the trace of
externally visible steps and the cycle result.  Step order follows the
source: hostname, download test, latency test, clock read, assembly,
URL parse, wire encoding, Authorization header, client construction,
method parse, send, status log. -/
def collect_and_push (args : Args) (w : World) :
    List CycleEvent × Except Err Unit :=
  match w.hostnameRes with
  | .error e => ([.getHostname], .error e)
  | .ok hostname =>
    let measured : List CycleEvent :=
      [.getHostname, .measureDownload, .measureLatency, .readClock]
    match w.nowRes with
    | .error e => (measured, .error e)
    | .ok time =>
      let write_request :=
        buildWriteRequest hostname w.downloadSpeed w.avgLatency time
      match w.parseUrl args.remote_write_url with
      | .error e => (measured ++ [.parseUrlStep], .error e)
      | .ok url =>
        match w.encode url USER_AGENT write_request with
        | .error e => (measured ++ [.parseUrlStep, .encodeRequest], .error e)
        | .ok baseReq =>
          let req := addAuthHeader baseReq
              args.username_remote_write args.password_remote_write
          let built := measured ++
            [.parseUrlStep, .encodeRequest, .buildClient requestTimeoutSecs]
          match w.clientBuild with
          | .error e => (built, .error e)
          | .ok _ =>
            match w.parseMethod req.method with
            | .error e => (built, .error e)
            | .ok _ =>
              match w.send req with
              | .error e => (built ++ [.send req], .error e)
              | .ok response =>
                  (built ++ [.send req, .logStatus response.status], .ok ())

/-! ## The scheduler `execute_at_interval` -/

/-- Externally visible steps of the scheduler loop: the i-th invocation
of the task, and sleeps with their duration. -/
inductive SchedEvent where
  | invoke (i : Nat)
  | sleep (d : Nat)
deriving DecidableEq, Repr

/-- The loop of `execute_at_interval` (src/main.rs lines 153-164),
run from invocation index `i` with the given fuel.  `task j` is the
result of the j-th invocation of the (stateful) task closure,
`elapsed j` the wall-clock duration that invocation consumed, and
`interval` the configured period, all in the same time unit.  Each
iteration invokes the task; on error the loop returns that error at
once; on success it sleeps for `interval - elapsed` when the invocation
took less than the interval and otherwise proceeds immediately.
Exhausted fuel (`none`) means the loop is still running. -/
def runSchedule (task : Nat → Except Err Unit) (elapsed : Nat → Nat)
    (interval : Nat) : Nat → Nat → List SchedEvent × Option Err
  | 0, _ => ([], none)
  | fuel + 1, i =>
    match task i with
    | .error e => ([.invoke i], some e)
    | .ok _ =>
      let rest := runSchedule task elapsed interval fuel (i + 1)
      if elapsed i < interval then
        (.invoke i :: .sleep (interval - elapsed i) :: rest.1, rest.2)
      else
        (.invoke i :: rest.1, rest.2)

/-- `execute_at_interval` (src/main.rs lines 147-165): converts the
interval from minutes to the working time unit (milliseconds,
`Duration::from_secs(interval_minutes * 60)`) and runs the loop from
invocation 0. -/
def execute_at_interval (task : Nat → Except Err Unit) (elapsed : Nat → Nat)
    (interval_minutes : Nat) (fuel : Nat) : List SchedEvent × Option Err :=
  runSchedule task elapsed (interval_minutes * 60 * 1000) fuel 0

/-! ## Trace predicates and concrete instances used in witnesses -/

/-- `occursBefore a b tr` holds when the first occurrence of `a` in
`tr` is followed (strictly later) by an occurrence of `b`. -/
def occursBefore {α : Type} [DecidableEq α] (a b : α) : List α → Bool
  | [] => false
  | x :: xs => if x = a then xs.contains b else occursBefore a b xs

/-- A concrete configuration, for witnesses. -/
def args0 : Args :=
  { interval := 1,
    remote_write_url := "http://localhost:9090/api/v1/write",
    username_remote_write := "user",
    password_remote_write := "pass" }

/-- A concrete wire-encoder output, for witnesses. -/
def req0 : HttpRequest :=
  { method := "POST",
    url := "http://localhost:9090/api/v1/write",
    headers := [("Content-Encoding", "snappy")],
    body := [0, 1, 2] }

/-- A concrete world in which every collaborator succeeds and the
server answers with status 500, for witnesses. -/
def w0 : World :=
  { hostnameRes := .ok "myhost",
    downloadSpeed := 50.0,
    avgLatency := 20.0,
    nowRes := .ok 1700000000000,
    parseUrl := fun s => .ok s,
    encode := fun _ _ _ => .ok req0,
    clientBuild := .ok (),
    parseMethod := fun _ => .ok (),
    send := fun _ => .ok { status := 500 } }

/-- A concrete task that fails on its first invocation, for witnesses. -/
def task0 : Nat → Except Err Unit :=
  fun i => if i = 0 then .error "transport error" else .ok ()

/-! ## C1, C7: shape of the assembled write request -/

/-- C1: for every hostname, download measurement, latency measurement
and timestamp, the assembly step produces a WriteRequest with exactly
two time series — one whose metric-name label is
`sw_internet_bandwidth_mbit` carrying the download value and one whose
metric-name label is `sw_internet_latency_ms` carrying the latency
value — each series bearing the hostname label and a metric-name
label, and each containing exactly one sample whose timestamp is the
supplied cycle timestamp. -/
theorem assemble_write_request_shape (hostname : String)
    (download avg_latency : Float) (time : Int) :
    (buildWriteRequest hostname download avg_latency time).timeseries.length = 2 ∧
    (∀ ts ∈ (buildWriteRequest hostname download avg_latency time).timeseries,
      Label.mk "hostname" hostname ∈ ts.labels ∧
      (∃ v, Label.mk LABEL_NAME v ∈ ts.labels) ∧
      ∃ s, ts.samples = [s] ∧ s.timestamp = time) ∧
    (∃ ts ∈ (buildWriteRequest hostname download avg_latency time).timeseries,
      Label.mk LABEL_NAME "sw_internet_bandwidth_mbit" ∈ ts.labels ∧
      ts.samples = [Sample.mk download time]) ∧
    (∃ ts ∈ (buildWriteRequest hostname download avg_latency time).timeseries,
      Label.mk LABEL_NAME "sw_internet_latency_ms" ∈ ts.labels ∧
      ts.samples = [Sample.mk avg_latency time]) := by
  refine ⟨rfl, ?_, ?_, ?_⟩
  · intro ts hts
    simp only [buildWriteRequest, List.mem_cons, List.not_mem_nil, or_false] at hts
    rcases hts with rfl | rfl
    · exact ⟨List.Mem.head _,
        ⟨"sw_internet_bandwidth_mbit", List.Mem.tail _ (List.Mem.head _)⟩,
        ⟨Sample.mk download time, rfl, rfl⟩⟩
    · exact ⟨List.Mem.head _,
        ⟨"sw_internet_latency_ms", List.Mem.tail _ (List.Mem.head _)⟩,
        ⟨Sample.mk avg_latency time, rfl, rfl⟩⟩
  · exact ⟨_, List.Mem.head _, List.Mem.tail _ (List.Mem.head _), rfl⟩
  · exact ⟨_, List.Mem.tail _ (List.Mem.head _),
      List.Mem.tail _ (List.Mem.head _), rfl⟩

/-- Witness for C1 at a concrete input. -/
theorem assemble_write_request_shape_witness :
    (buildWriteRequest "myhost" 50.0 20.0 1700000000000).timeseries.length = 2 ∧
    (∀ ts ∈ (buildWriteRequest "myhost" 50.0 20.0 1700000000000).timeseries,
      Label.mk "hostname" "myhost" ∈ ts.labels ∧
      (∃ v, Label.mk LABEL_NAME v ∈ ts.labels) ∧
      ∃ s, ts.samples = [s] ∧ s.timestamp = 1700000000000) ∧
    (∃ ts ∈ (buildWriteRequest "myhost" 50.0 20.0 1700000000000).timeseries,
      Label.mk LABEL_NAME "sw_internet_bandwidth_mbit" ∈ ts.labels ∧
      ts.samples = [Sample.mk 50.0 1700000000000]) ∧
    (∃ ts ∈ (buildWriteRequest "myhost" 50.0 20.0 1700000000000).timeseries,
      Label.mk LABEL_NAME "sw_internet_latency_ms" ∈ ts.labels ∧
      ts.samples = [Sample.mk 20.0 1700000000000]) :=
  assemble_write_request_shape "myhost" 50.0 20.0 1700000000000

/-- C7: every time series emitted by the assembly step has
pairwise-distinct label names. -/
theorem assemble_label_names_nodup (hostname : String)
    (download avg_latency : Float) (time : Int) :
    ∀ ts ∈ (buildWriteRequest hostname download avg_latency time).timeseries,
      (ts.labels.map Label.name).Nodup := by
  intro ts hts
  simp only [buildWriteRequest, List.mem_cons, List.not_mem_nil, or_false] at hts
  rcases hts with rfl | rfl <;> simp [LABEL_NAME]

/-- Witness for C7 at a concrete input. -/
theorem assemble_label_names_nodup_witness :
    (((buildWriteRequest "myhost" 50.0 20.0 1700000000000).timeseries.headI).labels.map
        Label.name).Nodup :=
  assemble_label_names_nodup "myhost" 50.0 20.0 1700000000000 _ (List.Mem.head _)

/-! ## C4, C9: the Authorization header -/

theorem lookup_insertHeader (headers : List (String × String))
    (name value : String) :
    (insertHeader headers name value).lookup name = some value := by
  induction headers with
  | nil => simp [insertHeader, List.lookup]
  | cons p hs ih =>
    obtain ⟨k, b⟩ := p
    by_cases h : k = name
    · simpa [insertHeader, List.filter_cons, h] using ih
    · have hbeq : (name == k) = false := by simp [Ne.symm h]
      simpa [insertHeader, List.filter_cons, h, List.lookup, hbeq] using ih

theorem mem_insertHeader_eq (headers : List (String × String))
    (name value v : String) (h : (name, v) ∈ insertHeader headers name value) :
    v = value := by
  rcases List.mem_append.1 h with h1 | h1
  · have := (List.mem_filter.1 h1).2
    simp at this
  · simpa using h1

/-- C4: every request handed to the send step carries an Authorization
header whose value is the string Basic followed by a space and the
standard base64 encoding of the UTF-8 bytes of `username:password`;
the request is the wire-encoder output with that header inserted,
overwriting any Authorization header the encoder may have set. -/
theorem sent_request_has_basic_auth (args : Args) (w : World) (r : HttpRequest)
    (h : CycleEvent.send r ∈ (collect_and_push args w).1) :
    (∃ hostname time url base,
      w.hostnameRes = .ok hostname ∧ w.nowRes = .ok time ∧
      w.parseUrl args.remote_write_url = .ok url ∧
      w.encode url USER_AGENT
        (buildWriteRequest hostname w.downloadSpeed w.avgLatency time) = .ok base ∧
      r = addAuthHeader base args.username_remote_write args.password_remote_write) ∧
    r.headers.lookup "Authorization" =
      some (authHeaderValue args.username_remote_write args.password_remote_write) ∧
    ∀ v, ("Authorization", v) ∈ r.headers →
      v = authHeaderValue args.username_remote_write args.password_remote_write := by
  simp only [collect_and_push] at h
  split at h
  · simp at h
  next hostname hh =>
    split at h
    · simp at h
    next time ht =>
      split at h
      · simp at h
      next url hu =>
        split at h
        · simp at h
        next base he =>
          split at h
          · simp at h
          next hc =>
            split at h
            · simp at h
            next hm =>
              split at h <;>
              · simp at h
                subst h
                exact ⟨⟨hostname, time, url, base, hh, ht, hu, he, rfl⟩,
                  lookup_insertHeader _ _ _, fun v hv => mem_insertHeader_eq _ _ _ v hv⟩

/-- Witness for C4: the request sent in the concrete world carries the
Basic Authorization header. -/
theorem sent_request_has_basic_auth_witness :
    (addAuthHeader req0 "user" "pass").headers.lookup "Authorization" =
      some (authHeaderValue "user" "pass") :=
  (sent_request_has_basic_auth args0 w0
    (addAuthHeader req0 "user" "pass")
    (by simp [collect_and_push, args0, w0, req0])).2.1

theorem b64Char_valid (n : Nat) : isValidHeaderChar (b64Char n) = true := by
  have hlt : n % 64 < 64 := Nat.mod_lt _ (by decide)
  have hall : ∀ m, m < 64 → isValidHeaderChar (b64Table.getD m 'A') = true := by
    decide
  exact hall _ hlt

theorem b64Chars_valid (bytes : List Nat) :
    (b64Chars bytes).all isValidHeaderChar = true := by
  induction bytes using b64Chars.induct with
  | case1 => rfl
  | case2 a => simp [b64Chars, b64Char_valid]; decide
  | case3 a b => simp [b64Chars, b64Char_valid]; decide
  | case4 a b c rest ih => simp [b64Chars, b64Char_valid, ih]

/-- C9: for every username and password, the Authorization header value
built from Basic plus the base64 credentials consists only of bytes the
http crate accepts in a header value, so the unwrap on the header-value
parse can never panic. -/
theorem auth_header_value_always_valid (username password : String) :
    (authHeaderValue username password).toList.all isValidHeaderChar = true := by
  have h1 : (authHeaderValue username password).toList
      = "Basic ".toList ++ b64Chars (utf8Bytes (username ++ ":" ++ password)) := by
    simp [authHeaderValue, basicCredentials, base64Encode, String.toList,
      String.data_append]
  rw [h1, List.all_append]
  exact (Bool.and_eq_true _ _).mpr ⟨by decide, b64Chars_valid _⟩

/-! ## C6: any received response completes the cycle -/

/-- C6: when every step up to the delivery succeeds, receiving any
HTTP response at all — whatever its status code — makes the cycle
return Ok, while a transport failure (the request could not be
completed) makes the cycle return that error. -/
theorem any_response_is_ok (args : Args) (w : World) (hostname : String)
    (time : Int) (url : String) (base : HttpRequest)
    (hh : w.hostnameRes = .ok hostname) (ht : w.nowRes = .ok time)
    (hu : w.parseUrl args.remote_write_url = .ok url)
    (he : w.encode url USER_AGENT
      (buildWriteRequest hostname w.downloadSpeed w.avgLatency time) = .ok base)
    (hc : w.clientBuild = .ok ())
    (hm : w.parseMethod (addAuthHeader base
      args.username_remote_write args.password_remote_write).method = .ok ()) :
    (∀ response, w.send (addAuthHeader base
        args.username_remote_write args.password_remote_write) = .ok response →
      (collect_and_push args w).2 = .ok ()) ∧
    (∀ e, w.send (addAuthHeader base
        args.username_remote_write args.password_remote_write) = .error e →
      (collect_and_push args w).2 = .error e) := by
  constructor
  · intro response hs
    simp [collect_and_push, hh, ht, hu, he, hc, hm, hs]
  · intro e hs
    simp [collect_and_push, hh, ht, hu, he, hc, hm, hs]

/-- Witness for C6: in the concrete world the server answers with
status 500 and the cycle still returns Ok. -/
theorem any_response_is_ok_witness : (collect_and_push args0 w0).2 = .ok () :=
  (any_response_is_ok args0 w0 "myhost" 1700000000000
      args0.remote_write_url req0 rfl rfl rfl rfl rfl rfl).1
    { status := 500 } rfl

/-! ## C8: the delivery client timeout -/

/-- C8: in every cycle, whenever the HTTP client is constructed its
request timeout is exactly 30 seconds, and whenever a request is sent
the client with that 30-second timeout was constructed earlier in the
same cycle. -/
theorem client_timeout_is_30 (args : Args) (w : World) :
    (∀ t, CycleEvent.buildClient t ∈ (collect_and_push args w).1 → t = 30) ∧
    (∀ r, CycleEvent.send r ∈ (collect_and_push args w).1 →
      CycleEvent.buildClient 30 ∈ (collect_and_push args w).1) := by
  constructor
  · intro t h
    simp only [collect_and_push] at h
    split at h
    · simp at h
    · split at h
      · simp at h
      · split at h
        · simp at h
        · split at h
          · simp at h
          · split at h
            · simp [requestTimeoutSecs] at h
              exact h
            · split at h
              · simp [requestTimeoutSecs] at h
                exact h
              · split at h <;>
                · simp [requestTimeoutSecs] at h
                  exact h
  · intro r h
    simp only [collect_and_push] at h ⊢
    split at h
    · simp at h
    · split at h
      · simp at h
      · split at h
        · simp at h
        · split at h
          · simp at h
          · split at h
            · simp at h
            · split at h
              · simp at h
              · split at h <;> simp [requestTimeoutSecs]

/-- Witness for C8 at the concrete world. -/
theorem client_timeout_is_30_witness : requestTimeoutSecs = 30 :=
  (client_timeout_is_30 args0 w0).1 requestTimeoutSecs
    (by simp [collect_and_push, args0, w0, req0])

/-! ## C5: when the cycle timestamp is read -/

/-- Counterexample to C5: in a concrete cycle in which every
collaborator succeeds, the clock read does not precede the download
measurement; both measurements come first and the clock is read after
them. -/
theorem clock_read_after_measurements_cex :
    occursBefore CycleEvent.readClock CycleEvent.measureDownload
      (collect_and_push args0 w0).1 = false ∧
    occursBefore CycleEvent.measureDownload CycleEvent.readClock
      (collect_and_push args0 w0).1 = true := by
  constructor <;> rfl

/-- Every cycle trace is either the lone failed hostname lookup or
starts with the hostname lookup, the two measurements and the clock
read, in that order. -/
theorem cycle_trace_shape (args : Args) (w : World) :
    (collect_and_push args w).1 = [CycleEvent.getHostname] ∨
    ∃ rest, (collect_and_push args w).1 =
      CycleEvent.getHostname :: CycleEvent.measureDownload ::
      CycleEvent.measureLatency :: CycleEvent.readClock :: rest := by
  simp only [collect_and_push]
  repeat' split
  all_goals first
    | exact Or.inl rfl
    | exact Or.inr ⟨_, rfl⟩

/-- C5 as amended: in every cycle that reads the clock, the timestamp
is read after the download and latency measurements have run, not
before them. -/
theorem clock_read_after_measurements (args : Args) (w : World)
    (h : CycleEvent.readClock ∈ (collect_and_push args w).1) :
    occursBefore CycleEvent.measureDownload CycleEvent.readClock
      (collect_and_push args w).1 = true ∧
    occursBefore CycleEvent.measureLatency CycleEvent.readClock
      (collect_and_push args w).1 = true := by
  rcases cycle_trace_shape args w with hs | ⟨rest, hs⟩
  · rw [hs] at h
    simp at h
  · rw [hs]
    exact ⟨rfl, rfl⟩

/-- Witness for the amended C5 at the concrete world. -/
theorem clock_read_after_measurements_witness :
    occursBefore CycleEvent.measureDownload CycleEvent.readClock
      (collect_and_push args0 w0).1 = true ∧
    occursBefore CycleEvent.measureLatency CycleEvent.readClock
      (collect_and_push args0 w0).1 = true :=
  clock_read_after_measurements args0 w0 (by decide)

/-! ## C2, C3, C10: the scheduler -/

theorem runSchedule_error_stops (task : Nat → Except Err Unit)
    (elapsed : Nat → Nat) (interval : Nat) :
    ∀ (m fuel i : Nat) (e : Err), m < fuel →
      task (i + m) = .error e →
      (∀ j, j < m → task (i + j) = .ok ()) →
      (runSchedule task elapsed interval fuel i).2 = some e ∧
      (runSchedule task elapsed interval fuel i).1.getLast? =
        some (.invoke (i + m)) ∧
      ∀ j, SchedEvent.invoke j ∈ (runSchedule task elapsed interval fuel i).1 →
        j ≤ i + m := by
  intro m
  induction m with
  | zero =>
    intro fuel i e hf hk _
    obtain ⟨f, rfl⟩ : ∃ f, fuel = f + 1 := ⟨fuel - 1, by omega⟩
    rw [Nat.add_zero] at hk
    refine ⟨?_, ?_, ?_⟩ <;> simp [runSchedule, hk]
  | succ m ih =>
    intro fuel i e hf hk hprev
    obtain ⟨f, rfl⟩ : ∃ f, fuel = f + 1 := ⟨fuel - 1, by omega⟩
    have h0 : task i = .ok () := by simpa using hprev 0 (Nat.succ_pos m)
    have hk2 : task (i + 1 + m) = .error e := by
      have harith : i + 1 + m = i + (m + 1) := by omega
      rw [harith]; exact hk
    have hprev2 : ∀ j, j < m → task (i + 1 + j) = .ok () := by
      intro j hj
      have harith : i + 1 + j = i + (j + 1) := by omega
      rw [harith]; exact hprev (j + 1) (by omega)
    obtain ⟨hres, hlast, hinv⟩ := ih f (i + 1) e (by omega) hk2 hprev2
    have hne : (runSchedule task elapsed interval f (i + 1)).1 ≠ [] := by
      intro hnil
      rw [hnil] at hlast
      simp at hlast
    have harith2 : i + 1 + m = i + (m + 1) := by omega
    simp only [runSchedule, h0]
    by_cases hel : elapsed i < interval
    · rw [if_pos hel]
      refine ⟨hres, ?_, ?_⟩
      · show ([SchedEvent.invoke i, SchedEvent.sleep (interval - elapsed i)] ++
            (runSchedule task elapsed interval f (i + 1)).1).getLast? = _
        rw [List.getLast?_append_of_ne_nil _ hne, hlast, harith2]
      · intro j hj
        simp only [List.mem_cons] at hj
        rcases hj with hj | hj | hj
        · injection hj with hji
          omega
        · simp at hj
        · have := hinv j hj
          omega
    · rw [if_neg hel]
      refine ⟨hres, ?_, ?_⟩
      · show ([SchedEvent.invoke i] ++
            (runSchedule task elapsed interval f (i + 1)).1).getLast? = _
        rw [List.getLast?_append_of_ne_nil _ hne, hlast, harith2]
      · intro j hj
        simp only [List.mem_cons] at hj
        rcases hj with hj | hj
        · injection hj with hji
          omega
        · have := hinv j hj
          omega

/-- C2: if the task fails on its k-th invocation and succeeded on every
earlier one, `execute_at_interval` returns exactly that error; the last
recorded event is the failing invocation itself, so no sleep follows
it, and no invocation with a higher index ever occurs. -/
theorem execute_at_interval_error_propagates (task : Nat → Except Err Unit)
    (elapsed : Nat → Nat) (interval_minutes fuel k : Nat) (e : Err)
    (hk : task k = .error e) (hprev : ∀ j, j < k → task j = .ok ())
    (hfuel : k < fuel) :
    (execute_at_interval task elapsed interval_minutes fuel).2 = some e ∧
    (execute_at_interval task elapsed interval_minutes fuel).1.getLast? =
      some (.invoke k) ∧
    ∀ j, SchedEvent.invoke j ∈
        (execute_at_interval task elapsed interval_minutes fuel).1 → j ≤ k := by
  have h := runSchedule_error_stops task elapsed (interval_minutes * 60 * 1000)
    k fuel 0 e hfuel (by simpa using hk) (by simpa using hprev)
  simpa [execute_at_interval] using h

/-- Witness for C2: a task failing on its first invocation stops the
scheduler at once with that error. -/
theorem execute_at_interval_error_witness :
    (execute_at_interval task0 (fun _ => 0) 1 3).2 = some "transport error" ∧
    (execute_at_interval task0 (fun _ => 0) 1 3).1.getLast? =
      some (.invoke 0) ∧
    ∀ j, SchedEvent.invoke j ∈ (execute_at_interval task0 (fun _ => 0) 1 3).1 →
      j ≤ 0 :=
  execute_at_interval_error_propagates task0 (fun _ => 0) 1 3 0
    "transport error" rfl (fun j hj => absurd hj (Nat.not_lt_zero j))
    (by decide)

theorem runSchedule_congr_elapsed (task : Nat → Except Err Unit)
    (elapsed elapsedAlt : Nat → Nat) (interval : Nat) :
    ∀ fuel i, (∀ j, i ≤ j → elapsed j = elapsedAlt j) →
      runSchedule task elapsed interval fuel i =
      runSchedule task elapsedAlt interval fuel i := by
  intro fuel
  induction fuel with
  | zero => intro i _; rfl
  | succ f ih =>
    intro i hagree
    have hrest := ih (i + 1) (fun j hj => hagree j (by omega))
    have hi := hagree i (Nat.le_refl i)
    simp only [runSchedule, hrest, hi]

/-- C3: in an iteration whose invocation succeeds, the scheduler emits
the invocation followed by a sleep of exactly `interval - elapsed` when
the invocation took less than the interval, and no sleep at all when it
took the interval or longer; the remainder of the run is the same loop
started at the next index, computed from a duration function that may
differ arbitrarily at the current index — so an overrun never shortens
any future sleep. -/
theorem scheduler_iteration_timing (task : Nat → Except Err Unit)
    (elapsed elapsedAlt : Nat → Nat) (interval i fuel : Nat)
    (hok : task i = .ok ())
    (hagree : ∀ j, i < j → elapsed j = elapsedAlt j) :
    runSchedule task elapsed interval (fuel + 1) i =
      ((if elapsed i < interval
        then [SchedEvent.invoke i, SchedEvent.sleep (interval - elapsed i)]
        else [SchedEvent.invoke i]) ++
        (runSchedule task elapsedAlt interval fuel (i + 1)).1,
       (runSchedule task elapsedAlt interval fuel (i + 1)).2) := by
  have hrest := runSchedule_congr_elapsed task elapsed elapsedAlt interval
    fuel (i + 1) (fun j hj => hagree j (by omega))
  simp only [runSchedule, hok, hrest]
  by_cases hel : elapsed i < interval <;> simp [hel]

/-- Witness for C3: with a 1000 ms invocation and a 60000 ms interval,
the iteration sleeps exactly 59000 ms. -/
theorem scheduler_iteration_timing_witness :
    runSchedule (fun _ => .ok ()) (fun _ => 1000) 60000 2 0 =
      ((if (1000 : Nat) < 60000
        then [SchedEvent.invoke 0, SchedEvent.sleep (60000 - 1000)]
        else [SchedEvent.invoke 0]) ++
        (runSchedule (fun _ => .ok ()) (fun _ => 1000) 60000 1 1).1,
       (runSchedule (fun _ => .ok ()) (fun _ => 1000) 60000 1 1).2) :=
  scheduler_iteration_timing (fun _ => .ok ()) (fun _ => 1000)
    (fun _ => 1000) 60000 0 1 rfl (fun _ _ => rfl)

theorem runSchedule_all_ok_none (task : Nat → Except Err Unit)
    (elapsed : Nat → Nat) (interval : Nat) (hall : ∀ i, task i = .ok ()) :
    ∀ fuel i, (runSchedule task elapsed interval fuel i).2 = none := by
  intro fuel
  induction fuel with
  | zero => intro i; rfl
  | succ f ih =>
    intro i
    simp only [runSchedule, hall i]
    by_cases hel : elapsed i < interval <;> simp [hel, ih]

theorem runSchedule_some_from_task (task : Nat → Except Err Unit)
    (elapsed : Nat → Nat) (interval : Nat) :
    ∀ fuel i e, (runSchedule task elapsed interval fuel i).2 = some e →
      ∃ k, task k = .error e := by
  intro fuel
  induction fuel with
  | zero => intro i e h; simp [runSchedule] at h
  | succ f ih =>
    intro i e h
    rcases htask : task i with e0 | u
    · simp only [runSchedule, htask] at h
      obtain rfl : e0 = e := Option.some.inj h
      exact ⟨i, htask⟩
    · simp only [runSchedule, htask] at h
      by_cases hel : elapsed i < interval
      · simp only [hel, if_pos] at h
        exact ih (i + 1) e h
      · simp only [hel, if_neg] at h
        exact ih (i + 1) e h

/-- C10: `execute_at_interval` never returns Ok — a run that
terminates does so with an error coming from some task invocation, and
when every invocation succeeds the loop is still running after any
number of iterations. -/
theorem execute_at_interval_never_ok (task : Nat → Except Err Unit)
    (elapsed : Nat → Nat) (interval_minutes : Nat) :
    ((∀ i, task i = .ok ()) →
      ∀ fuel, (execute_at_interval task elapsed interval_minutes fuel).2 = none) ∧
    (∀ fuel e, (execute_at_interval task elapsed interval_minutes fuel).2 = some e →
      ∃ k, task k = .error e) := by
  constructor
  · intro hall fuel
    exact runSchedule_all_ok_none task elapsed _ hall fuel 0
  · intro fuel e h
    exact runSchedule_some_from_task task elapsed _ fuel 0 e h

/-- Witness for C10: with an always-succeeding task the loop has no
result after three iterations. -/
theorem execute_at_interval_never_ok_witness :
    (execute_at_interval (fun _ => .ok ()) (fun _ => 0) 1 3).2 = none :=
  (execute_at_interval_never_ok (fun _ => .ok ()) (fun _ => 0) 1).1
    (fun _ => rfl) 3

end Speedwatch
